import Mathlib

/-!
Verification of the data-normalization and aggregation core of the
BMU accuracy / interconnector trading dashboards.

The embedding models the pandas pipelines of
`src/presentation/pn_accuracy_dashboard.py` and
`src/presentation/reference.py` as pure functions on lists of records.
Numeric cells are rationals; a pandas `NaN` is `Option.none`.  CSV cells
are modelled post-parse: a cell either carries numeric content, carries
non-numeric text, or is missing.
-/

/-- A raw CSV cell after pandas has read the file: numeric content,
non-numeric text, or missing (NaN). -/
inductive RawCell where
  | num (q : ℚ)
  | text (s : String)
  | null
  deriving DecidableEq

/-- `pd.to_numeric(cell, errors="coerce")`: numeric content passes
through unchanged, non-numeric text and missing values become NaN. -/
def toNumericCoerce : RawCell → Option ℚ
  | RawCell.num q => some q
  | RawCell.text _ => none
  | RawCell.null => none

/-- Writing the result of the coercion back into the column: a coercion
failure stores NaN, a success stores the numeric value. -/
def coerceCell (v : RawCell) : RawCell :=
  match toNumericCoerce v with
  | some q => RawCell.num q
  | none => RawCell.null

/-- `for c in num_cols: if c in df.columns: df[c] = pd.to_numeric(df[c],
errors="coerce")` applied to one row: every cell whose column name is in
the whitelist is coerced, the rest are untouched. -/
def coerceCols (wl : List String) (cells : List (String × RawCell)) :
    List (String × RawCell) :=
  cells.map (fun p => if wl.contains p.1 then (p.1, coerceCell p.2) else p)

/-- Reading a numeric column of a row: the value if the cell holds a
number, NaN (`none`) otherwise. -/
def getNum (cells : List (String × RawCell)) (c : String) : Option ℚ :=
  match cells.lookup c with
  | some (RawCell.num q) => some q
  | _ => none

/-- `str.replace(r"-(\d)$", r"-0\1", regex=True)`: a single digit at the
end of the string that directly follows a dash is zero-padded. -/
def padMonth (s : String) : String :=
  match s.toList.reverse with
  | d :: '-' :: rest =>
      if d.isDigit then String.mk ((('-') :: rest).reverse ++ [('0'), d]) else s
  | _ => s

/-- Splitting a character list on the dash character. -/
def splitOnDash : List Char → List (List Char)
  | [] => [[]]
  | c :: rest =>
      match splitOnDash rest, decide (c = ('-')) with
      | r, true => [] :: r
      | [], false => [[c]]
      | g :: gs, false => (c :: g) :: gs

/-- A nonempty all-digit character list read as a natural number. -/
def digitsToNat (cs : List Char) : Option Nat :=
  if cs.isEmpty then none
  else if cs.all Char.isDigit then
    some (cs.foldl (fun acc c => 10 * acc + (c.toNat - 48)) 0)
  else none

/-- `pd.to_datetime(s, format="%Y-%m", errors="coerce")`: the string must
be digits, a dash, and a one/two digit month in 1..12 (strptime's `%m`);
anything else is NaT (`none`).  The result is the (year, month) pair of
the parsed timestamp. -/
def parseYearMonth (s : String) : Option (Int × Nat) :=
  match splitOnDash s.toList with
  | [y, m] =>
      match digitsToNat y, digitsToNat m with
      | some yn, some mn =>
          if 1 ≤ mn ∧ mn ≤ 12 then some ((yn : Int), mn) else none
      | _, _ => none
  | _ => none

def monthNames : List String :=
  ["January", "February", "March", "April", "May", "June", "July",
   "August", "September", "October", "November", "December"]

/-- `dt.month_name()` for a month number in 1..12. -/
def monthNameStr (m : Nat) : String := monthNames.getD (m - 1) ("")

/-- Concatenation of the per-source tables (`pd.concat`). -/
def concatMap (f : α → List β) : List α → List β
  | [] => []
  | a :: l => f a ++ concatMap f l

-- =====================================================================
-- Accuracy dashboard: annual and monthly loaders (load_accuracy_data)
-- =====================================================================

def numColsA : List String :=
  ["PNLevel", "MELLevel", "MILLevel", "BidVolume", "OfferVolume",
   "Metered", "ExpectOT", "CapacityCalibrated", "NetError", "ABSError",
   "max_M_ABS_NetError%", "installedCapacity_mwh", "A_NetError%",
   "A_ABS_NetError%", "Rank_A_ABS_NetError%", "PctRank_A_ABS_NetError%"]

def numColsM : List String :=
  ["PNLevel", "MELLevel", "MILLevel", "BidVolume", "OfferVolume",
   "Metered", "ExpectOT", "CapacityCalibrated", "NetError", "ABSError",
   "installedCapacity_mwh", "M_NetError%", "M_ABS_NetError%",
   "Rank_M_ABS_NetError%", "PctRank_M_ABS_NetError%"]

def aAbsCol : String := "A_ABS_NetError%"

def mAbsCol : String := "M_ABS_NetError%"

/-- A raw row of an annual_summary CSV.  The identity columns are read
as strings (the code applies `.astype(str)`); the remaining columns are
kept as raw cells keyed by their (already whitespace-stripped) names. -/
structure RawAnnualRow where
  nationalGridBmUnit : String
  FUEL_I : String
  cells : List (String × RawCell)
  deriving DecidableEq

/-- A canonical annual row after normalization. -/
structure AnnualRow where
  BMU : String
  Fuel : String
  Year : Int
  Grain : String
  cells : List (String × RawCell)
  deriving DecidableEq

/-- Per-row effect of the annual branch of `load_accuracy_data`:
whitelisted numeric columns coerced, `BMU`/`Fuel` copied from the
identity columns, `Year`/`Grain` constants. -/
def transformAnnualRow (r : RawAnnualRow) : AnnualRow :=
  { BMU := r.nationalGridBmUnit
    Fuel := r.FUEL_I
    Year := 2025
    Grain := "annual"
    cells := coerceCols numColsA r.cells }

/-- The annual side of `load_accuracy_data`: each file transformed, then
`pd.concat(..., ignore_index=True)` (empty table when no files). -/
def loadAnnual (files : List (List RawAnnualRow)) : List AnnualRow :=
  concatMap (fun f => f.map transformAnnualRow) files

/-- A raw row of a monthly_summary CSV. -/
structure RawMonthlyRow where
  nationalGridBmUnit : String
  FUEL_I : String
  year_month : String
  cells : List (String × RawCell)
  deriving DecidableEq

/-- A canonical monthly row after normalization. -/
structure MonthlyRow where
  BMU : String
  Fuel : String
  year_month : String
  YearMonth : Option (Int × Nat)
  Year : Option Int
  Month : Option Nat
  MonthName : Option String
  Grain : String
  cells : List (String × RawCell)
  deriving DecidableEq

/-- Per-row effect of the monthly branch of `load_accuracy_data`:
the `year_month` string is zero-padded and parsed (`errors="coerce"`,
so an unparsable period gives NaT and null calendar fields), the
whitelisted numeric columns are coerced, identity columns copied. -/
def transformMonthlyRow (r : RawMonthlyRow) : MonthlyRow :=
  let ym := parseYearMonth (padMonth r.year_month)
  { BMU := r.nationalGridBmUnit
    Fuel := r.FUEL_I
    year_month := r.year_month
    YearMonth := ym
    Year := ym.map (fun p => p.1)
    Month := ym.map (fun p => p.2)
    MonthName := ym.map (fun p => monthNameStr p.2)
    Grain := "monthly"
    cells := coerceCols numColsM r.cells }

/-- The monthly side of `load_accuracy_data`. -/
def loadMonthly (files : List (List RawMonthlyRow)) : List MonthlyRow :=
  concatMap (fun f => f.map transformMonthlyRow) files

/-- `load_accuracy_data(annual_files, monthly_files)` returns the pair
`(df_annual, df_monthly)`. -/
def load_accuracy_data (annualFiles : List (List RawAnnualRow))
    (monthlyFiles : List (List RawMonthlyRow)) :
    List AnnualRow × List MonthlyRow :=
  (loadAnnual annualFiles, loadMonthly monthlyFiles)

-- =====================================================================
-- Percentile computation (np.nanpercentile, linear interpolation)
-- =====================================================================

/-- Insertion into an ascending list. -/
def insertAsc (q : ℚ) : List ℚ → List ℚ
  | [] => [q]
  | x :: xs => if q ≤ x then q :: x :: xs else x :: insertAsc q xs

/-- Ascending sort of the sample, as numpy does before interpolating. -/
def sortAsc (xs : List ℚ) : List ℚ := xs.foldr insertAsc []

/-- `np.nanpercentile(xs, 90)` on an all-non-null sample, with numpy's
default linear interpolation: the virtual index is
`h = 0.9 * (n - 1)`; the result interpolates between the floor and the
following order statistic.  Empty sample gives NaN. -/
def percentile90 (xs : List ℚ) : Option ℚ :=
  if xs.isEmpty then none
  else
    let s := sortAsc xs
    let n := s.length
    let h : ℚ := (90 / 100) * ((n : ℚ) - 1)
    -- the floor of the virtual index h = 9*(n-1)/10, as a Nat division
    let i : Nat := 9 * (n - 1) / 10
    let lo := s.getD i 0
    let hi := s.getD (min (i + 1) (n - 1)) 0
    some (lo + (h - (i : ℚ)) * (hi - lo))

/-- The non-null `M_ABS_NetError%` observations of one BMU, in row
order (`s.dropna()` inside the groupby-apply). -/
def bmuVals (rows : List MonthlyRow) (b : String) : List ℚ :=
  ((rows.filter (fun r => r.BMU == b)).map
    (fun r => getNum r.cells mAbsCol)).filterMap id

/-- The body of the groupby lambda:
`np.nanpercentile(s.dropna(), 90) if s.dropna().size > 0 else np.nan`. -/
def p90ForBMU (rows : List MonthlyRow) (b : String) : Option ℚ :=
  if (bmuVals rows b).length > 0 then percentile90 (bmuVals rows b)
  else none

/-- `df_monthly.groupby("BMU")["M_ABS_NetError%"].apply(...)`: one entry
per distinct BMU of the monthly table (group keys are exactly the
distinct values of the key column; their order is immaterial here). -/
def df_monthly_p90 (rows : List MonthlyRow) : List (String × Option ℚ) :=
  ((rows.map (fun r => r.BMU)).dedup).map (fun b => (b, p90ForBMU rows b))

-- =====================================================================
-- Enrichment: P90 merge and attention flag
-- =====================================================================

/-- A pandas `>=` comparison against a possibly-NaN value: NaN compares
false, it does not propagate. -/
def geNull (v : Option ℚ) (t : ℚ) : Bool :=
  match v with
  | some q => decide (t ≤ q)
  | none => false

/-- A row of the enriched annual table: the annual row with the
left-joined `P90_monthly_error`, the `ErrorFlagValue` copy of
`A_ABS_NetError%`, and the `NeedsAttention` flag. -/
structure EnrichedRow where
  row : AnnualRow
  P90_monthly_error : Option ℚ
  ErrorFlagValue : Option ℚ
  NeedsAttention : Bool
  deriving DecidableEq

/-- `df_annual.merge(df_monthly_p90, on="BMU", how="left")` followed by
the `ErrorFlagValue` and `NeedsAttention` column assignments
(`(A_ABS_NetError% >= 25) | (P90_monthly_error >= 25)`).  The join keys
of `df_monthly_p90` are distinct, so each annual row picks up the single
matching percentile, or NaN when its BMU has no monthly data. -/
def enrichAnnual (annual : List AnnualRow) (monthly : List MonthlyRow) :
    List EnrichedRow :=
  let p90 := df_monthly_p90 monthly
  annual.map (fun a =>
    let p := (p90.lookup a.BMU).join
    let aAbs := getNum a.cells aAbsCol
    { row := a
      P90_monthly_error := p
      ErrorFlagValue := aAbs
      NeedsAttention := geNull aAbs 25 || geNull p 25 })

-- =====================================================================
-- Accuracy dashboard filters (filtered_annual)
-- =====================================================================

/-- `filtered_annual[filtered_annual["Fuel"].isin(fuel_filter)]` —
applied unconditionally. -/
def fuelStep (fsel : List String) (rows : List EnrichedRow) :
    List EnrichedRow :=
  rows.filter (fun r => fsel.contains r.row.Fuel)

/-- `if bmu_filter: filtered_annual = filtered_annual[...isin(bmu_filter)]`
— an empty selection (falsy list) applies no entity filter at all. -/
def bmuStep (bsel : List String) (rows : List EnrichedRow) :
    List EnrichedRow :=
  if !bsel.isEmpty then rows.filter (fun r => bsel.contains r.row.BMU)
  else rows

/-- `if attention_only: ...[...["NeedsAttention"] == True]`. -/
def attStep (attentionOnly : Bool) (rows : List EnrichedRow) :
    List EnrichedRow :=
  if attentionOnly then rows.filter (fun r => r.NeedsAttention == true)
  else rows

/-- The global filter block of the accuracy dashboard: start from a copy
of the enriched annual table, then the fuel, BMU and attention steps. -/
def filtered_annual (rows : List EnrichedRow) (fsel bsel : List String)
    (attentionOnly : Bool) : List EnrichedRow :=
  attStep attentionOnly (bmuStep bsel (fuelStep fsel rows))

-- =====================================================================
-- Band classification (classify_band)
-- =====================================================================

/-- `classify_band` from the Fleet Overview module: NaN → "Unknown",
then the first satisfied upper bound wins. -/
def classify_band (v : Option ℚ) : String :=
  match v with
  | none => "Unknown"
  | some q =>
    if q < 1 then "0–1%"
    else if q < 2 then "1–2%"
    else if q < 4 then "2–4%"
    else if q < 10 then "4–10%"
    else ">10%"

def bandLabels : List String :=
  ["Unknown", "0–1%", "1–2%", "2–4%", "4–10%", ">10%"]

-- =====================================================================
-- Trading dashboard (reference.py): data model and loader
-- =====================================================================

/-- A timestamp as pandas sees a parsed `HourStartLocal`: calendar
fields plus an hour-of-day, which for a real datetime is always in
0..23. -/
structure Timestamp where
  year : Int
  month : Nat
  day : Nat
  hour : Fin 24
  deriving DecidableEq

/-- The raw `HourStartLocal` cell: either content that
`pd.to_datetime(..., errors="coerce")` parses, or content it turns into
NaT. -/
inductive RawStamp where
  | valid (t : Timestamp)
  | invalid (s : String)
  deriving DecidableEq

/-- `pd.to_datetime(cell, errors="coerce", utc=True)` on one cell. -/
def toDatetimeCoerce : RawStamp → Option Timestamp
  | RawStamp.valid t => some t
  | RawStamp.invalid _ => none

/-- A raw row of a trading CSV (fields of the required columns; `none`
models a NaN read from the file). -/
structure RawTradeRow where
  HourStartLocal : RawStamp
  Interconnector : Option String
  Trade_Abs_MW : Option ℚ
  Trade_Direction : String
  IsPartialHour : Bool
  Trade_Bucket_All : String
  deriving DecidableEq

/-- A calendar date `(year, month, day)` as produced by `dt.date`. -/
abbrev TDate := Int × Nat × Nat

/-- ASCII upper-casing of a character, on code points (`str.upper()` on
the names appearing here). -/
def charUpperNat (c : Char) : Nat :=
  if 97 ≤ c.toNat && c.toNat ≤ 122 then c.toNat - 32 else c.toNat

/-- True when the upper-cased name has "IFA" as a substring
(the code points of "IFA" are 73, 70, 65). -/
def hasIFA (s : String) : Bool :=
  let u := s.toList.map charUpperNat
  (List.range u.length).any
    (fun i => decide ((u.drop i).take 3 = [73, 70, 65]))

/-- `map_group`: any interconnector whose upper-cased name contains
"IFA" is grouped as "IFA"; every other name is its own group. -/
def map_group (name : String) : String :=
  if hasIFA name then "IFA" else name

/-- A canonical row of `fact_trades` after loading: the surviving
required columns plus the derived calendar columns and the
interconnector group. -/
structure TradeRow where
  HourStartLocal : Timestamp
  Interconnector : String
  Trade_Abs_MW : ℚ
  Trade_Direction : String
  IsPartialHour : Bool
  Trade_Bucket_All : String
  Date : TDate
  Hour : Fin 24
  Year : Int
  Month : Nat
  MonthName : String
  InterconnectorGroup : String
  deriving DecidableEq

/-- Per-row effect of the post-concatenation steps of
`load_and_transform_data`: the `HourStartLocal` coercion, the
`dropna(subset=["HourStartLocal", "Trade_Abs_MW", "Interconnector"])`,
the derived calendar columns and the group mapping.  A row any of whose
three key cells is null after coercion is dropped (`none`). -/
def transformTradeRow (r : RawTradeRow) : Option TradeRow :=
  match toDatetimeCoerce r.HourStartLocal, r.Trade_Abs_MW,
      r.Interconnector with
  | some t, some mw, some ic =>
      some { HourStartLocal := t
             Interconnector := ic
             Trade_Abs_MW := mw
             Trade_Direction := r.Trade_Direction
             IsPartialHour := r.IsPartialHour
             Trade_Bucket_All := r.Trade_Bucket_All
             Date := (t.year, t.month, t.day)
             Hour := t.hour
             Year := t.year
             Month := t.month
             MonthName := monthNameStr t.month
             InterconnectorGroup := map_group ic }
  | _, _, _ => none

/-- One input source: either `pd.read_csv` raised (caught, source
skipped with a diagnostic), or it produced a table with the given
header columns and rows. -/
inductive TradeSource where
  | unreadable (msg : String)
  | table (cols : List String) (rows : List RawTradeRow)
  deriving DecidableEq

def requiredCols : List String :=
  ["HourStartLocal", "Interconnector", "Trade_Abs_MW",
   "Trade_Direction", "IsPartialHour", "Trade_Bucket_All"]

/-- The body of the source loop of `load_and_transform_data`: an
unreadable source (`except` branch) and a source failing the
required-column check (`continue`) contribute nothing; every other
source appends its rows to `all_dfs`. -/
def readSource : TradeSource → Option (List RawTradeRow)
  | TradeSource.unreadable _ => none
  | TradeSource.table cols rows =>
      if requiredCols.all (fun c => cols.contains c) then some rows
      else none

/-- The rows a source contributes to the concatenation: none when it is
unreadable or fails the required-column check. -/
def sourceRows (s : TradeSource) : List RawTradeRow :=
  (readSource s).getD []

/-- `load_and_transform_data(files_or_paths)`: unreadable sources and
sources missing a required column are skipped; if nothing is left the
empty table is returned; otherwise the remaining tables are
concatenated, `HourStartLocal` is coerced, the key-null rows are
dropped, and the derived columns are added. -/
def load_and_transform_data (sources : List TradeSource) :
    List TradeRow :=
  let all_dfs := sources.filterMap readSource
  if all_dfs.isEmpty then []
  else (concatMap id all_dfs).filterMap transformTradeRow

-- =====================================================================
-- Trading dashboard filters and measures
-- =====================================================================

/-- Python date ordering: lexicographic on (year, month, day). -/
def dateLEb (d1 d2 : TDate) : Bool :=
  decide (d1.1 < d2.1) ||
    (decide (d1.1 = d2.1) &&
      (decide (d1.2.1 < d2.2.1) ||
        (decide (d1.2.1 = d2.2.1) && decide (d1.2.2 ≤ d2.2.2))))

/-- `apply_filters(df, dr, groups_sel, ics_sel, dir_mode, inc_partial)`:
a copy of the input, then the date-range mask (only when a 2-element
range is supplied), the group and interconnector membership masks, the
partial-hour mask (unless partial hours are included) and the direction
mask. -/
def apply_filters (df : List TradeRow) (dr : Option (TDate × TDate))
    (groupsSel icsSel : List String) (dirMode : String)
    (incPartialHours : Bool) : List TradeRow :=
  let tempDf := df
  let tempDf : List TradeRow := match dr with
    | some lohi =>
        tempDf.filter (fun r =>
          dateLEb lohi.1 r.Date && dateLEb r.Date lohi.2)
    | none => tempDf
  let tempDf := tempDf.filter
    (fun r => groupsSel.contains r.InterconnectorGroup)
  let tempDf := tempDf.filter
    (fun r => icsSel.contains r.Interconnector)
  let tempDf := if !incPartialHours then
      tempDf.filter (fun r => r.IsPartialHour == false)
    else tempDf
  let tempDf := if dirMode == "Import" then
      tempDf.filter (fun r => r.Trade_Direction == "Import")
    else if dirMode == "Export" then
      tempDf.filter (fun r => r.Trade_Direction == "Export")
    else tempDf
  tempDf

/-- `get_measures(df, threshold)`: the subset strictly above the
threshold, then (rows of the subset, distinct timestamps, distinct
days, summed MW, mean MW or 0). -/
def get_measures (df : List TradeRow) (threshold : ℚ) :
    Nat × Nat × Nat × ℚ × ℚ :=
  let subset := df.filter (fun r => decide (threshold < r.Trade_Abs_MW))
  let ic_hours_above := subset.length
  let network_hours_above :=
    ((subset.map (fun r => r.HourStartLocal)).dedup).length
  let days_above := ((subset.map (fun r => r.Date)).dedup).length
  let total_energy_mwh := (subset.map (fun r => r.Trade_Abs_MW)).sum
  let avg_power_mw := if ic_hours_above > 0 then
      total_energy_mwh / (ic_hours_above : ℚ)
    else 0
  (ic_hours_above, network_hours_above, days_above, total_energy_mwh,
    avg_power_mw)

/-- The Daily Activity aggregate:
`filtered_fact[... > threshold].groupby("Date")["Hour"].nunique()` —
one entry per distinct date of the supra-threshold subset, counting the
distinct hour-of-day values of that date (group-key order is immaterial
here). -/
def daily_data (df : List TradeRow) (threshold : ℚ) :
    List (TDate × Nat) :=
  let sub := df.filter (fun r => decide (threshold < r.Trade_Abs_MW))
  ((sub.map (fun r => r.Date)).dedup).map (fun d =>
    (d, (((sub.filter (fun r => r.Date == d)).map
      (fun r => r.Hour)).dedup).length))

-- =====================================================================
-- Heap model for the frame claim (no mutation of the input table)
-- =====================================================================

/-- A store of dataframes: a reference is an index into the allocation
list.  pandas `copy()` and boolean-mask subscripting both allocate a
fresh frame and leave every existing frame untouched. -/
structure Heap (α : Type) where
  tabs : List (List α)

def Heap.get (h : Heap α) (r : Nat) : List α := h.tabs.getD r []

def Heap.alloc (h : Heap α) (t : List α) : Heap α × Nat :=
  (⟨h.tabs ++ [t]⟩, h.tabs.length)

/-- `df.copy()`. -/
def pdCopy (h : Heap α) (r : Nat) : Heap α × Nat := h.alloc (h.get r)

/-- `df[mask]` for a row-wise boolean mask: a new frame holding the
selected rows. -/
def pdMask (h : Heap α) (r : Nat) (p : α → Bool) : Heap α × Nat :=
  h.alloc ((h.get r).filter p)

/-- A masking pipeline: each stage either applies a mask or (when its
enabling condition is off) leaves the working frame alone. -/
def runMask (ps : List (Option (α → Bool))) (s : Heap α × Nat) :
    Heap α × Nat :=
  match ps with
  | [] => s
  | op :: rest =>
      match op with
      | some p => runMask rest (pdMask s.1 s.2 p)
      | none => runMask rest s

/-- The same pipeline on a plain table value. -/
def applyOps (ps : List (Option (α → Bool))) (v : List α) : List α :=
  match ps with
  | [] => v
  | op :: rest =>
      match op with
      | some p => applyOps rest (v.filter p)
      | none => applyOps rest v

/-- The row predicate equivalent to a whole masking pipeline. -/
def opsPred {α : Type} (ps : List (Option (α → Bool))) (a : α) : Bool :=
  ps.all (fun op => match op with | some p => p a | none => true)

/-- The (optional) date-range stage of `apply_filters`. -/
def dateOp (dr : Option (TDate × TDate)) : Option (TradeRow → Bool) :=
  match dr with
  | some lohi => some (fun r =>
      dateLEb lohi.1 r.Date && dateLEb r.Date lohi.2)
  | none => none

/-- The (optional) partial-hour stage of `apply_filters`. -/
def partialOp (incPartialHours : Bool) : Option (TradeRow → Bool) :=
  if !incPartialHours then some (fun r => r.IsPartialHour == false)
  else none

/-- The (optional) direction stage of `apply_filters`. -/
def dirOp (dirMode : String) : Option (TradeRow → Bool) :=
  if dirMode == "Import" then
    some (fun r => r.Trade_Direction == "Import")
  else if dirMode == "Export" then
    some (fun r => r.Trade_Direction == "Export")
  else none

/-- The stages of `apply_filters` as a masking pipeline. -/
def tradeOps (dr : Option (TDate × TDate)) (groupsSel icsSel : List String)
    (dirMode : String) (incPartialHours : Bool) :
    List (Option (TradeRow → Bool)) :=
  [dateOp dr,
   some (fun r => groupsSel.contains r.InterconnectorGroup),
   some (fun r => icsSel.contains r.Interconnector),
   partialOp incPartialHours,
   dirOp dirMode]

/-- The statement sequence of `apply_filters` on the frame store:
`temp_df = df.copy()` then the mask stages. -/
def apply_filters_heap (h : Heap TradeRow) (df : Nat)
    (dr : Option (TDate × TDate)) (groupsSel icsSel : List String)
    (dirMode : String) (incPartialHours : Bool) : Heap TradeRow × Nat :=
  runMask (tradeOps dr groupsSel icsSel dirMode incPartialHours)
    (pdCopy h df)

/-- The (optional) BMU stage of the global filter block. -/
def bmuOp (bsel : List String) : Option (EnrichedRow → Bool) :=
  if !bsel.isEmpty then some (fun r => bsel.contains r.row.BMU)
  else none

/-- The (optional) attention stage of the global filter block. -/
def attOp (attentionOnly : Bool) : Option (EnrichedRow → Bool) :=
  if attentionOnly then some (fun r => r.NeedsAttention == true)
  else none

/-- The stages of the accuracy dashboard's global filter block as a
masking pipeline. -/
def annualOps (fsel bsel : List String) (attentionOnly : Bool) :
    List (Option (EnrichedRow → Bool)) :=
  [some (fun r => fsel.contains r.row.Fuel), bmuOp bsel,
   attOp attentionOnly]

/-- `filtered_annual = df_annual.copy()` then the three filter
statements, on the frame store. -/
def filtered_annual_heap (h : Heap EnrichedRow) (df : Nat)
    (fsel bsel : List String) (attentionOnly : Bool) :
    Heap EnrichedRow × Nat :=
  runMask (annualOps fsel bsel attentionOnly) (pdCopy h df)

-- =====================================================================
-- Concrete tables used by the claim instances
-- =====================================================================

/-- An annual row with coarse-grain absolute error 24. -/
def cAnnual24 : AnnualRow :=
  { BMU := "B1"
    Fuel := "WIND"
    Year := 2025
    Grain := "annual"
    cells := [(aAbsCol, RawCell.num 24)] }

/-- A monthly row for the same BMU with a single error value 26 (so the
joined 90th percentile is 26). -/
def cMonthly26 : MonthlyRow :=
  transformMonthlyRow
    { nationalGridBmUnit := "B1"
      FUEL_I := "WIND"
      year_month := "2025-1"
      cells := [(mAbsCol, RawCell.num 26)] }

/-- A monthly row for BMU "B1" whose only observation is null. -/
def cMonthly26NullRow : MonthlyRow :=
  transformMonthlyRow
    { nationalGridBmUnit := "B1"
      FUEL_I := "WIND"
      year_month := "2025-7"
      cells := [(mAbsCol, RawCell.null)] }

/-- The fine-grain file of the concrete C3 scenario: entity "E1" with
error values 10, 20, 30, 40, 50 and one NaN. -/
def cE1Rows : List RawMonthlyRow :=
  [{ nationalGridBmUnit := "E1", FUEL_I := "WIND",
     year_month := "2025-1", cells := [(mAbsCol, RawCell.num 10)] },
   { nationalGridBmUnit := "E1", FUEL_I := "WIND",
     year_month := "2025-2", cells := [(mAbsCol, RawCell.num 20)] },
   { nationalGridBmUnit := "E1", FUEL_I := "WIND",
     year_month := "2025-3", cells := [(mAbsCol, RawCell.num 30)] },
   { nationalGridBmUnit := "E1", FUEL_I := "WIND",
     year_month := "2025-4", cells := [(mAbsCol, RawCell.num 40)] },
   { nationalGridBmUnit := "E1", FUEL_I := "WIND",
     year_month := "2025-5", cells := [(mAbsCol, RawCell.num 50)] },
   { nationalGridBmUnit := "E1", FUEL_I := "WIND",
     year_month := "2025-6", cells := [(mAbsCol, RawCell.null)] }]

/-- One row of a trading table for each hour of one day. -/
def mkC6Row (h : Fin 24) : TradeRow :=
  { HourStartLocal := { year := 2025, month := 3, day := 15, hour := h }
    Interconnector := "NEMO"
    Trade_Abs_MW := 10
    Trade_Direction := "Import"
    IsPartialHour := false
    Trade_Bucket_All := "A"
    Date := ((2025 : Int), 3, 15)
    Hour := h
    Year := 2025
    Month := 3
    MonthName := monthNameStr 3
    InterconnectorGroup := map_group ("NEMO") }

/-- 25 rows on a single day: every hour once, hour 0 twice (two
interconnector readings in the same hour). -/
def c6df : List TradeRow := (List.finRange 24).map mkC6Row ++ [mkC6Row 0]

/-- A raw trading row whose `HourStartLocal` fails date coercion. -/
def cBadTradeRow : RawTradeRow :=
  { HourStartLocal := RawStamp.invalid ("not-a-date")
    Interconnector := some ("NEMO")
    Trade_Abs_MW := some 100
    Trade_Direction := "Import"
    IsPartialHour := false
    Trade_Bucket_All := "A" }

/-- A readable trading source with all required columns and a single
row whose timestamp fails coercion. -/
def cBadSource : TradeSource := TradeSource.table requiredCols [cBadTradeRow]

/-- A raw monthly row whose period string fails date parsing. -/
def cBadMonthlyRow : RawMonthlyRow :=
  { nationalGridBmUnit := "B9"
    FUEL_I := "WIND"
    year_month := "bogus"
    cells := [(mAbsCol, RawCell.text ("n/a"))] }

-- =====================================================================
-- Helper lemmas
-- =====================================================================

theorem applyOps_eq_filter {α : Type} (ps : List (Option (α → Bool)))
    (v : List α) : applyOps ps v = v.filter (opsPred ps) := by
  induction ps generalizing v with
  | nil => exact (List.filter_true v).symm
  | cons op rest ih =>
    cases op with
    | some p =>
      show applyOps rest (v.filter p) = _
      rw [ih, List.filter_filter]
      exact List.filter_congr (fun a _ => by
        simp [opsPred, Bool.and_comm])
    | none =>
      show applyOps rest v = _
      rw [ih]
      exact List.filter_congr (fun a _ => by simp [opsPred])

theorem filter_twice {α : Type} (p : α → Bool) (l : List α) :
    (l.filter p).filter p = l.filter p := by
  rw [List.filter_filter]
  exact List.filter_congr (fun a _ => Bool.and_self (p a))

theorem applyOps_idem {α : Type} (ps : List (Option (α → Bool)))
    (v : List α) : applyOps ps (applyOps ps v) = applyOps ps v := by
  simp only [applyOps_eq_filter]
  exact filter_twice _ _

theorem apply_filters_eq_applyOps (df : List TradeRow)
    (dr : Option (TDate × TDate)) (g i : List String) (dm : String)
    (ip : Bool) :
    apply_filters df dr g i dm ip = applyOps (tradeOps dr g i dm ip) df := by
  cases dr <;> cases ip <;>
    cases h1 : dm == "Import" <;> cases h2 : dm == "Export" <;>
      simp [apply_filters, applyOps, tradeOps, dateOp, partialOp, dirOp,
        h1, h2]

theorem filtered_annual_eq_applyOps (rows : List EnrichedRow)
    (fsel bsel : List String) (att : Bool) :
    filtered_annual rows fsel bsel att =
      applyOps (annualOps fsel bsel att) rows := by
  cases hb : bsel.isEmpty <;> cases att <;>
    simp [filtered_annual, fuelStep, bmuStep, attStep, applyOps,
      annualOps, bmuOp, attOp, hb]

theorem geNull_iff (v : Option ℚ) (t : ℚ) :
    geNull v t = true ↔ ∃ q, v = some q ∧ t ≤ q := by
  cases v <;> simp [geNull]

-- =====================================================================
-- Claim C4 — empty-selection asymmetry of the accuracy filters
-- =====================================================================

/-- Claim C4: filtering with an empty fuel (category) selection yields
zero rows whatever the other predicates do, while an empty BMU (entity)
selection applies no entity filter at all, so the full pipeline with an
empty BMU selection equals the pipeline without its entity stage. -/
theorem claim_C4 :
    (∀ (rows : List EnrichedRow) (bsel : List String) (att : Bool),
        filtered_annual rows [] bsel att = []) ∧
    (∀ rows : List EnrichedRow, bmuStep [] rows = rows) ∧
    (∀ (rows : List EnrichedRow) (fsel : List String) (att : Bool),
        filtered_annual rows fsel [] att =
          attStep att (fuelStep fsel rows)) := by
  refine ⟨?_, ?_, ?_⟩
  · intro rows bsel att
    have hfuel : fuelStep [] rows = [] := by
      simp [fuelStep]
    have hbmu : bmuStep bsel ([] : List EnrichedRow) = [] := by
      cases hb : bsel.isEmpty <;> simp [bmuStep, hb]
    have hatt : attStep att ([] : List EnrichedRow) = [] := by
      cases att <;> simp [attStep]
    rw [filtered_annual, hfuel, hbmu, hatt]
  · intro rows
    simp [bmuStep]
  · intro rows fsel att
    rw [filtered_annual]
    have : bmuStep [] (fuelStep fsel rows) = fuelStep fsel rows := by
      simp [bmuStep]
    rw [this]

-- =====================================================================
-- Claim C5 — band classification
-- =====================================================================

/-- Claim C5: every input is classified into exactly one of the six
labels; null maps to "Unknown"; the numeric bands are the half-open
intervals evaluated top-down, and in particular 3.9999 lands in the
same band as 2.0 while 4.0 lands in the next band. -/
theorem claim_C5 :
    (∀ v, classify_band v ∈ bandLabels) ∧
    (classify_band none = "Unknown") ∧
    (∀ q : ℚ, q < 1 → classify_band (some q) = "0–1%") ∧
    (∀ q : ℚ, 1 ≤ q → q < 2 → classify_band (some q) = "1–2%") ∧
    (∀ q : ℚ, 2 ≤ q → q < 4 → classify_band (some q) = "2–4%") ∧
    (∀ q : ℚ, 4 ≤ q → q < 10 → classify_band (some q) = "4–10%") ∧
    (∀ q : ℚ, 10 ≤ q → classify_band (some q) = ">10%") ∧
    (classify_band (some (39999 / 10000)) = classify_band (some 2) ∧
     classify_band (some 2) = "2–4%" ∧
     classify_band (some 4) = "4–10%") := by
  refine ⟨?_, rfl, ?_, ?_, ?_, ?_, ?_, ?_, ?_, ?_⟩
  · intro v
    cases v with
    | none => decide
    | some q =>
      show classify_band (some q) ∈ bandLabels
      rw [classify_band]
      split_ifs <;> decide
  · intro q h
    rw [classify_band, if_pos h]
  · intro q h1 h2
    rw [classify_band, if_neg (not_lt.mpr h1), if_pos h2]
  · intro q h1 h2
    rw [classify_band, if_neg (not_lt.mpr (by linarith)),
      if_neg (not_lt.mpr h1), if_pos h2]
  · intro q h1 h2
    rw [classify_band, if_neg (not_lt.mpr (by linarith)),
      if_neg (not_lt.mpr (by linarith)), if_neg (not_lt.mpr h1),
      if_pos h2]
  · intro q h1
    rw [classify_band, if_neg (not_lt.mpr (by linarith)),
      if_neg (not_lt.mpr (by linarith)),
      if_neg (not_lt.mpr (by linarith)),
      if_neg (not_lt.mpr h1)]
  · norm_num [classify_band]
  · norm_num [classify_band]
  · norm_num [classify_band]

/-- Witness for C5 at concrete inputs. -/
theorem claim_C5_witness :
    classify_band (some 3) = "2–4%" ∧ classify_band (some 1) = "1–2%" :=
  ⟨claim_C5.2.2.2.2.1 3 (by norm_num) (by norm_num),
   claim_C5.2.2.2.1 1 (by norm_num) (by norm_num)⟩

-- =====================================================================
-- Claim C10 — negative inputs fall into the lowest band
-- =====================================================================

/-- Claim C10: `classify_band` has no lower guard, so every non-null
value strictly below 1 — negative values included — is classified
"0–1%". -/
theorem claim_C10 :
    ∀ q : ℚ, q < 1 → classify_band (some q) = "0–1%" := by
  intro q h
  rw [classify_band, if_pos h]

/-- Witness for C10: the negative input -5 lands in the lowest band. -/
theorem claim_C10_witness : classify_band (some (-5)) = "0–1%" :=
  claim_C10 (-5) (by norm_num)

-- =====================================================================
-- Claim C2 — the attention flag
-- =====================================================================

/-- Claim C2: in the enriched annual table, `NeedsAttention` holds iff
the coarse absolute-error measure is a non-null value ≥ 25 or the
joined monthly percentile is a non-null value ≥ 25 (nulls make a
disjunct false); concretely, coarse error 24 with joined percentile 26
is flagged, and coarse error 24 with a null joined percentile is not. -/
theorem claim_C2 :
    (∀ (annual : List AnnualRow) (monthly : List MonthlyRow)
        (e : EnrichedRow), e ∈ enrichAnnual annual monthly →
        (e.NeedsAttention = true ↔
          ((∃ q, getNum e.row.cells aAbsCol = some q ∧ 25 ≤ q) ∨
           (∃ q, e.P90_monthly_error = some q ∧ 25 ≤ q)))) ∧
    ((enrichAnnual [cAnnual24] [cMonthly26]).map
        (fun e => e.NeedsAttention) = [true]) ∧
    ((enrichAnnual [cAnnual24] []).map
        (fun e => e.NeedsAttention) = [false]) := by
  refine ⟨?_, ?_, ?_⟩
  · intro annual monthly e he
    simp only [enrichAnnual, List.mem_map] at he
    obtain ⟨a, _, rfl⟩ := he
    simp only [Bool.or_eq_true, geNull_iff]
  · have hv : bmuVals [cMonthly26] "B1" = [26] := by decide
    have hp : p90ForBMU [cMonthly26] "B1" = some 26 := by
      rw [p90ForBMU, hv]
      norm_num [percentile90, sortAsc, insertAsc]
    have hd : (([cMonthly26].map (fun r => r.BMU)).dedup) = ["B1"] := by
      decide
    have hm : df_monthly_p90 [cMonthly26] = [("B1", some 26)] := by
      unfold df_monthly_p90
      rw [hd]
      simp [hp]
    simp [enrichAnnual, hm, cAnnual24, getNum, geNull, aAbsCol]
    norm_num
  · decide

/-- Witness for C2: the flag equivalence instantiated on the concrete
enriched table built from `cAnnual24` and `cMonthly26`. -/
theorem claim_C2_witness :
    ∀ e ∈ enrichAnnual [cAnnual24] [cMonthly26],
      (e.NeedsAttention = true ↔
        ((∃ q, getNum e.row.cells aAbsCol = some q ∧ 25 ≤ q) ∨
         (∃ q, e.P90_monthly_error = some q ∧ 25 ≤ q))) :=
  fun e he => claim_C2.1 [cAnnual24] [cMonthly26] e he

-- =====================================================================
-- Claim C3 — per-entity 90th percentile over non-null values
-- =====================================================================

theorem bmuVals_nil_of_null (rows : List MonthlyRow) (b : String)
    (h : ∀ r ∈ rows, r.BMU = b → getNum r.cells mAbsCol = none) :
    bmuVals rows b = [] := by
  induction rows with
  | nil => rfl
  | cons r rest ih =>
    have hrest : bmuVals rest b = [] :=
      ih (fun x hx => h x (List.mem_cons_of_mem r hx))
    cases hrb : r.BMU == b with
    | false =>
      simpa [bmuVals, List.filter_cons, hrb] using hrest
    | true =>
      have : getNum r.cells mAbsCol = none :=
        h r (List.mem_cons_self r rest) (beq_iff_eq.mp hrb)
      simpa [bmuVals, List.filter_cons, hrb, this] using hrest

/-- Claim C3: the per-entity percentile table has exactly one entry per
distinct BMU of the monthly table; each entry carries that BMU's
percentile; an extra all-null observation never changes the percentile
(nulls are excluded, not zeroed); an entity whose observations are all
null gets a null percentile while still appearing; and on the concrete
scenario [10, 20, 30, 40, 50, NaN] the percentile is 46. -/
theorem claim_C3 :
    (∀ (rows : List MonthlyRow) (b : String),
        (∃ p, (b, p) ∈ df_monthly_p90 rows) ↔ ∃ r ∈ rows, r.BMU = b) ∧
    (∀ (rows : List MonthlyRow) (b : String) (p : Option ℚ),
        (b, p) ∈ df_monthly_p90 rows → p = p90ForBMU rows b) ∧
    (∀ (rows : List MonthlyRow) (b : String) (rNull : MonthlyRow),
        rNull.BMU = b → getNum rNull.cells mAbsCol = none →
        p90ForBMU (rows ++ [rNull]) b = p90ForBMU rows b) ∧
    (∀ (rows : List MonthlyRow) (b : String) (p : Option ℚ),
        (∀ r ∈ rows, r.BMU = b → getNum r.cells mAbsCol = none) →
        (b, p) ∈ df_monthly_p90 rows → p = none) ∧
    (df_monthly_p90 (loadMonthly [cE1Rows]) = [("E1", some 46)]) := by
  refine ⟨?_, ?_, ?_, ?_, ?_⟩
  · intro rows b
    constructor
    · rintro ⟨p, hp⟩
      simp only [df_monthly_p90, List.mem_map] at hp
      obtain ⟨b2, hb2, heq⟩ := hp
      rw [Prod.mk.injEq] at heq
      obtain ⟨rfl, -⟩ := heq
      rw [List.mem_dedup] at hb2
      obtain ⟨r, hr, hrb⟩ := List.mem_map.mp hb2
      exact ⟨r, hr, hrb⟩
    · rintro ⟨r, hr, rfl⟩
      refine ⟨p90ForBMU rows r.BMU, ?_⟩
      simp only [df_monthly_p90, List.mem_map]
      refine ⟨r.BMU, ?_, rfl⟩
      rw [List.mem_dedup]
      exact List.mem_map.mpr ⟨r, hr, rfl⟩
  · intro rows b p hp
    simp only [df_monthly_p90, List.mem_map] at hp
    obtain ⟨b2, _, heq⟩ := hp
    rw [Prod.mk.injEq] at heq
    obtain ⟨rfl, hp2⟩ := heq
    exact hp2.symm
  · intro rows b rNull hb hnull
    subst hb
    have hv : bmuVals (rows ++ [rNull]) rNull.BMU =
        bmuVals rows rNull.BMU := by
      simp [bmuVals, List.filter_append, List.map_append,
        List.filterMap_append, hnull]
    rw [p90ForBMU, p90ForBMU, hv]
  · intro rows b p hnull hp
    simp only [df_monthly_p90, List.mem_map] at hp
    obtain ⟨b2, _, heq⟩ := hp
    rw [Prod.mk.injEq] at heq
    obtain ⟨rfl, hp2⟩ := heq
    rw [← hp2, p90ForBMU, bmuVals_nil_of_null rows b2 hnull]
    simp
  · have hd : (((loadMonthly [cE1Rows]).map (fun r => r.BMU)).dedup) =
        ["E1"] := by decide
    have hv : bmuVals (loadMonthly [cE1Rows]) "E1" =
        [10, 20, 30, 40, 50] := by decide
    have hp : p90ForBMU (loadMonthly [cE1Rows]) "E1" = some 46 := by
      rw [p90ForBMU, hv]
      norm_num [percentile90, sortAsc, insertAsc]
    unfold df_monthly_p90
    rw [hd]
    simp [hp]

/-- Witness for C3: the all-null clause instantiated on a one-row table
whose only observation is null, and the presence clause on the same
table. -/
theorem claim_C3_witness :
    (∀ p : Option ℚ,
      ("B1", p) ∈ df_monthly_p90 [cMonthly26NullRow] → p = none) ∧
    ((∃ p, ("B1", p) ∈ df_monthly_p90 [cMonthly26NullRow]) ↔
      ∃ r ∈ [cMonthly26NullRow], r.BMU = "B1") :=
  ⟨fun p hp => claim_C3.2.2.2.1 [cMonthly26NullRow] "B1" p
      (by decide) hp,
   claim_C3.1 [cMonthly26NullRow] "B1"⟩

/-- Claim C8: applying `apply_filters` with a fixed predicate set to its
own output returns that output unchanged. -/
theorem claim_C8 :
    ∀ (df : List TradeRow) (dr : Option (TDate × TDate))
      (g i : List String) (dm : String) (ip : Bool),
      apply_filters (apply_filters df dr g i dm ip) dr g i dm ip =
        apply_filters df dr g i dm ip := by
  intro df dr g i dm ip
  simp only [apply_filters_eq_applyOps]
  exact applyOps_idem _ _

-- =====================================================================
-- Claim C6 — two distinct counting semantics
-- =====================================================================

/-- Claim C6: the per-day "hours over threshold" aggregate counts
distinct hour-of-day values of the supra-threshold rows and so never
exceeds 24, while the "interconnector-hours" measure of `get_measures`
counts rows; on a concrete day with 25 supra-threshold rows the former
reports 24 and the latter 25. -/
theorem claim_C6 :
    (∀ (df : List TradeRow) (t : ℚ) (pr : TDate × Nat),
        pr ∈ daily_data df t → pr.2 ≤ 24) ∧
    (∀ (df : List TradeRow) (t : ℚ),
        (get_measures df t).1 =
          (df.filter (fun r => decide (t < r.Trade_Abs_MW))).length) ∧
    ((get_measures c6df 0).1 = 25 ∧
      daily_data c6df 0 = [(((2025 : Int), 3, 15), 24)]) := by
  refine ⟨?_, ?_, ?_, ?_⟩
  · intro df t pr hpr
    simp only [daily_data, List.mem_map] at hpr
    obtain ⟨d, -, heq⟩ := hpr
    rw [← heq]
    have hn := List.nodup_dedup
      ((((df.filter (fun r => decide (t < r.Trade_Abs_MW))).filter
        (fun r => r.Date == d)).map (fun r => r.Hour)))
    have hc := List.Nodup.length_le_card hn
    simpa using hc
  · intro df t
    rfl
  · decide
  · decide

/-- Witness for C6: the 24-hour bound instantiated on the concrete
one-day table. -/
theorem claim_C6_witness : ((((2025 : Int), 3, 15), 24) : TDate × Nat).2 ≤ 24 :=
  claim_C6.1 c6df 0 (((2025 : Int), 3, 15), 24) (by decide)

-- =====================================================================
-- Claim C7 — skipping unusable sources
-- =====================================================================

theorem concatMap_append (f : α → List β) (l1 l2 : List α) :
    concatMap f (l1 ++ l2) = concatMap f l1 ++ concatMap f l2 := by
  induction l1 with
  | nil => rfl
  | cons a rest ih => simp [concatMap, ih]

theorem concatMap_eq_nil_iff (f : α → List β) (l : List α) :
    concatMap f l = [] ↔ ∀ a ∈ l, f a = [] := by
  induction l with
  | nil => simp [concatMap]
  | cons a rest ih => simp [concatMap, ih]

theorem filterMap_concatMap (f : α → List β) (g : β → Option γ)
    (l : List α) :
    (concatMap f l).filterMap g =
      concatMap (fun a => (f a).filterMap g) l := by
  induction l with
  | nil => rfl
  | cons a rest ih => simp [concatMap, List.filterMap_append, ih]

theorem concatMap_filterMap_read (sources : List TradeSource) :
    concatMap id (sources.filterMap readSource) =
      concatMap sourceRows sources := by
  induction sources with
  | nil => rfl
  | cons s rest ih =>
    cases hs : readSource s with
    | none => simp [List.filterMap_cons, hs, concatMap, sourceRows, ih]
    | some rows => simp [List.filterMap_cons, hs, concatMap, sourceRows, ih]

theorem load_norm (sources : List TradeSource) :
    load_and_transform_data sources =
      (concatMap sourceRows sources).filterMap transformTradeRow := by
  by_cases hempty : (sources.filterMap readSource).isEmpty = true
  · have hall : ∀ s ∈ sources, sourceRows s = [] := by
      intro s hs
      have hnone := List.filterMap_eq_nil_iff.mp
        (List.isEmpty_iff.mp hempty) s hs
      simp [sourceRows, hnone]
    simp only [load_and_transform_data]
    rw [if_pos hempty, (concatMap_eq_nil_iff sourceRows sources).mpr hall]
    rfl
  · simp only [load_and_transform_data]
    rw [if_neg hempty, concatMap_filterMap_read]

/-- Claim C7: a source contributing no usable rows (unreadable, or
missing a required column) is skipped while the remaining sources are
still ingested; the loader has the closed form "transform the
concatenation of the usable sources' rows"; and the result is empty
exactly when no source yields usable rows — a normal value, not an
exception. -/
theorem claim_C7 :
    (∀ (pre post : List TradeSource) (s : TradeSource),
        sourceRows s = [] →
        load_and_transform_data (pre ++ s :: post) =
          load_and_transform_data (pre ++ post)) ∧
    (∀ sources : List TradeSource,
        load_and_transform_data sources =
          (concatMap sourceRows sources).filterMap transformTradeRow) ∧
    (∀ sources : List TradeSource,
        (load_and_transform_data sources = [] ↔
          ∀ s ∈ sources, (sourceRows s).filterMap transformTradeRow = [])) := by
  refine ⟨?_, load_norm, ?_⟩
  · intro pre post s hs
    rw [load_norm, load_norm, concatMap_append, concatMap_append]
    simp [concatMap, hs]
  · intro sources
    rw [load_norm, filterMap_concatMap]
    exact concatMap_eq_nil_iff _ sources

/-- Witness for C7: dropping the missing-column source from a concrete
two-source list leaves the loader's output unchanged. -/
theorem claim_C7_witness :
    load_and_transform_data
        [TradeSource.table requiredCols [cBadTradeRow],
         TradeSource.table [] [cBadTradeRow]] =
      load_and_transform_data [TradeSource.table requiredCols [cBadTradeRow]] := by
  have h := claim_C7.1 [TradeSource.table requiredCols [cBadTradeRow]] []
    (TradeSource.table [] [cBadTradeRow]) (by decide)
  simpa using h

-- =====================================================================
-- Claim C9 — filtering never mutates the input table
-- =====================================================================

theorem runMask_tabs {α : Type} (ps : List (Option (α → Bool)))
    (s : Heap α × Nat) :
    ∃ ts, ((runMask ps s).1).tabs = s.1.tabs ++ ts := by
  induction ps generalizing s with
  | nil => exact ⟨[], by simp [runMask]⟩
  | cons op rest ih =>
    cases op with
    | none => simpa [runMask] using ih s
    | some p =>
      obtain ⟨ts, hts⟩ := ih (pdMask s.1 s.2 p)
      refine ⟨((s.1.get s.2).filter p) :: ts, ?_⟩
      show ((runMask rest (pdMask s.1 s.2 p)).1).tabs = _
      rw [hts]
      simp [pdMask, Heap.alloc]

theorem pdMask_get_self {α : Type} (h : Heap α) (r : Nat) (p : α → Bool) :
    ((pdMask h r p).1).get ((pdMask h r p).2) = (h.get r).filter p := by
  show (h.tabs ++ [(h.get r).filter p]).getD h.tabs.length [] = _
  rw [List.getD_append_right _ _ _ _ (le_refl _)]
  simp

theorem runMask_val {α : Type} (ps : List (Option (α → Bool)))
    (s : Heap α × Nat) (hs : s.2 < s.1.tabs.length) :
    (runMask ps s).2 < ((runMask ps s).1).tabs.length ∧
    ((runMask ps s).1).get ((runMask ps s).2) =
      applyOps ps (s.1.get s.2) := by
  induction ps generalizing s with
  | nil => exact ⟨hs, rfl⟩
  | cons op rest ih =>
    cases op with
    | none => exact ih s hs
    | some p =>
      have h1 : (pdMask s.1 s.2 p).2 <
          ((pdMask s.1 s.2 p).1).tabs.length := by
        simp [pdMask, Heap.alloc]
      have h2 := ih (pdMask s.1 s.2 p) h1
      refine ⟨h2.1, ?_⟩
      show ((runMask rest (pdMask s.1 s.2 p)).1).get
          ((runMask rest (pdMask s.1 s.2 p)).2) =
        applyOps rest ((s.1.get s.2).filter p)
      rw [h2.2, pdMask_get_self]

theorem heap_frame {α : Type} (ps : List (Option (α → Bool)))
    (h : Heap α) (df : Nat) (hdf : df < h.tabs.length) :
    ((runMask ps (pdCopy h df)).1).get df = h.get df ∧
    ((runMask ps (pdCopy h df)).1).get ((runMask ps (pdCopy h df)).2) =
      applyOps ps (h.get df) := by
  constructor
  · obtain ⟨ts, hts⟩ := runMask_tabs ps (pdCopy h df)
    have htabs : ((runMask ps (pdCopy h df)).1).tabs =
        h.tabs ++ (h.get df :: ts) := by
      rw [hts]
      simp [pdCopy, Heap.alloc]
    show ((runMask ps (pdCopy h df)).1).tabs.getD df [] = _
    rw [htabs, List.getD_append _ _ _ _ hdf]
    rfl
  · have h1 : (pdCopy h df).2 < ((pdCopy h df).1).tabs.length := by
      simp [pdCopy, Heap.alloc]
    have h2 := runMask_val ps (pdCopy h df) h1
    rw [h2.2]
    have h3 : ((pdCopy h df).1).get ((pdCopy h df).2) = h.get df := by
      show (h.tabs ++ [h.get df]).getD h.tabs.length [] = _
      rw [List.getD_append_right _ _ _ _ (le_refl _)]
      simp
    rw [h3]

/-- Claim C9: running either filter block on the frame store leaves the
input frame exactly as it was — every row, column and value unchanged —
while the returned reference holds precisely the filtered subset of the
input's value. -/
theorem claim_C9 :
    (∀ (h : Heap TradeRow) (df : Nat) (dr : Option (TDate × TDate))
        (g i : List String) (dm : String) (ip : Bool),
        df < h.tabs.length →
        (((apply_filters_heap h df dr g i dm ip).1).get df = h.get df ∧
         ((apply_filters_heap h df dr g i dm ip).1).get
             ((apply_filters_heap h df dr g i dm ip).2) =
           apply_filters (h.get df) dr g i dm ip)) ∧
    (∀ (h : Heap EnrichedRow) (df : Nat) (fsel bsel : List String)
        (att : Bool), df < h.tabs.length →
        (((filtered_annual_heap h df fsel bsel att).1).get df =
            h.get df ∧
         ((filtered_annual_heap h df fsel bsel att).1).get
             ((filtered_annual_heap h df fsel bsel att).2) =
           filtered_annual (h.get df) fsel bsel att)) := by
  constructor
  · intro h df dr g i dm ip hdf
    have hf := heap_frame (tradeOps dr g i dm ip) h df hdf
    exact ⟨hf.1, by rw [apply_filters_eq_applyOps]; exact hf.2⟩
  · intro h df fsel bsel att hdf
    have hf := heap_frame (annualOps fsel bsel att) h df hdf
    exact ⟨hf.1, by rw [filtered_annual_eq_applyOps]; exact hf.2⟩

/-- Witness for C9: on a one-frame store holding the concrete one-day
table, filtering with trivial predicates leaves frame 0 untouched. -/
theorem claim_C9_witness :
    ((apply_filters_heap (Heap.mk [c6df]) 0 none ["NEMO"] ["NEMO"]
        ("Both") true).1).get 0 = (Heap.mk [c6df]).get 0 ∧
    ((apply_filters_heap (Heap.mk [c6df]) 0 none ["NEMO"] ["NEMO"]
        ("Both") true).1).get
        ((apply_filters_heap (Heap.mk [c6df]) 0 none ["NEMO"] ["NEMO"]
          ("Both") true).2) =
      apply_filters ((Heap.mk [c6df]).get 0) none ["NEMO"] ["NEMO"]
        ("Both") true :=
  claim_C9.1 (Heap.mk [c6df]) 0 none ["NEMO"] ["NEMO"] ("Both") true
    (by decide)

-- =====================================================================
-- Claim C1 — coercion failures: nulled rows kept vs. dropped rows
-- =====================================================================

/-- Counterexample to C1 as stated: in the trading pipeline a source
row whose `HourStartLocal` fails date coercion is dropped by
`dropna(subset=...)`, not retained with a null — the canonical table is
empty although one row was ingested. -/
theorem claim_C1_counterexample :
    (sourceRows cBadSource).length = 1 ∧
    load_and_transform_data [cBadSource] = [] := by decide

theorem concatMap_length (f : α → List β) (l : List α) :
    (concatMap f l).length = (l.map (fun a => (f a).length)).sum := by
  induction l with
  | nil => rfl
  | cons a rest ih => simp [concatMap, ih]

/-- Claim C1 (amended): in the accuracy pipeline every ingested row is
retained — the loaders preserve row counts — and a numeric coercion
failure stores a null in that cell (never a zero; successes keep their
exact value), while a period-string parse failure nulls the date and
all derived calendar fields of the retained row.  In the trading
pipeline, by contrast, a row whose `HourStartLocal` fails date coercion
is dropped from the canonical table. -/
theorem claim_C1_amended :
    (∀ files : List (List RawMonthlyRow),
        (loadMonthly files).length = (files.map List.length).sum) ∧
    (∀ files : List (List RawAnnualRow),
        (loadAnnual files).length = (files.map List.length).sum) ∧
    (∀ (wl : List String) (cells : List (String × RawCell))
        (c : String) (v : RawCell), (c, v) ∈ cells →
        wl.contains c = true → toNumericCoerce v = none →
        (c, RawCell.null) ∈ coerceCols wl cells) ∧
    (∀ (wl : List String) (cells : List (String × RawCell))
        (c : String) (v : RawCell) (q : ℚ), (c, v) ∈ cells →
        wl.contains c = true → toNumericCoerce v = some q →
        (c, RawCell.num q) ∈ coerceCols wl cells) ∧
    (∀ r : RawMonthlyRow, parseYearMonth (padMonth r.year_month) = none →
        (transformMonthlyRow r).YearMonth = none ∧
        (transformMonthlyRow r).Year = none ∧
        (transformMonthlyRow r).Month = none ∧
        (transformMonthlyRow r).MonthName = none) ∧
    (∀ r : RawTradeRow, toDatetimeCoerce r.HourStartLocal = none →
        transformTradeRow r = none) := by
  refine ⟨?_, ?_, ?_, ?_, ?_, ?_⟩
  · intro files
    simp [loadMonthly, concatMap_length]
  · intro files
    simp [loadAnnual, concatMap_length]
  · intro wl cells c v hmem hwl hcoerce
    induction cells with
    | nil => cases hmem
    | cons p rest ih =>
      rcases List.mem_cons.mp hmem with hEq | hTail
      · rw [← hEq]
        simp only [coerceCols, List.map_cons, ← hEq, hwl, if_pos]
        have : coerceCell v = RawCell.null := by
          rw [coerceCell, hcoerce]
        rw [this]
        exact List.mem_cons_self _ _
      · exact List.mem_cons_of_mem _ (ih hTail)
  · intro wl cells c v q hmem hwl hcoerce
    induction cells with
    | nil => cases hmem
    | cons p rest ih =>
      rcases List.mem_cons.mp hmem with hEq | hTail
      · rw [← hEq]
        simp only [coerceCols, List.map_cons, ← hEq, hwl, if_pos]
        have : coerceCell v = RawCell.num q := by
          rw [coerceCell, hcoerce]
        rw [this]
        exact List.mem_cons_self _ _
      · exact List.mem_cons_of_mem _ (ih hTail)
  · intro r hr
    refine ⟨?_, ?_, ?_, ?_⟩ <;> simp [transformMonthlyRow, hr]
  · intro r hr
    rw [transformTradeRow, hr]

/-- Witness for C1 (amended): a failed numeric coercion stores a null
in a concrete whitelisted cell; the monthly row with an unparsable
period keeps a null date; the concrete trading row with the failed
timestamp coercion is dropped. -/
theorem claim_C1_amended_witness :
    ((("X" : String), RawCell.null) ∈
        coerceCols ["X"] [(("X" : String), RawCell.text ("abc"))]) ∧
    (transformMonthlyRow cBadMonthlyRow).YearMonth = none ∧
    transformTradeRow cBadTradeRow = none :=
  ⟨claim_C1_amended.2.2.1 ["X"] [(("X" : String), RawCell.text ("abc"))]
      "X" (RawCell.text ("abc")) (by decide) (by decide) (by decide),
   (claim_C1_amended.2.2.2.2.1 cBadMonthlyRow (by decide)).1,
   claim_C1_amended.2.2.2.2.2 cBadTradeRow (by decide)⟩
